import Mathlib

/-!
Verification development for the tokPay repository.

Shallow embedding of the core value-transfer protocol:
* server-side reconciliation (`/api/sync` handler in `backend/server.js`),
* the load-balance endpoint (`/api/load-balance` in `backend/server.js`),
* the payee-side token verifier (`verifyPaymentToken` in the merchant
  `AppContext`),
* the payer-side token signer (`signPaymentToken` and the
  `INCREMENT_COUNTER` reducer case in the wallet `AppContext`).

Numbers stored in SQLite `REAL` columns and JavaScript numbers are modelled
as rationals (`ℚ`); JavaScript integers as `ℤ`.  The node-sqlite3 driver
executes the queued statements of one request serially in FIFO order; the
batch model below reflects the resulting two-phase execution of the sync
handler (all the existence SELECTs run against the state at the start of
the batch, the INSERTs and UPDATEs then run sequentially in element
order).
-/

namespace TokPay

/-- One element of a `/api/sync` batch: the destructured fields
`{ txnId, fromPhone, toMerchant, amount, counter, signature }`. -/
structure SyncTxn where
  txnId : String
  fromPhone : String
  toMerchant : String
  amount : ℚ
  counter : ℤ
  signature : String
deriving DecidableEq, Repr

/-- A row of the server `transactions` table. -/
structure TxnRecord where
  txnId : String
  fromPhone : String
  toMerchant : String
  amount : ℚ
  counter : ℤ
  signature : String
  status : String
deriving DecidableEq, Repr

/-- A row of the server `users` table (the columns the sync and
load-balance handlers touch: `balance` and `offline_balance`). -/
structure UserRow where
  phone : String
  balance : ℚ
  offlineBalance : ℚ
deriving DecidableEq, Repr

/-- A row of the server `merchants` table (the column the sync handler
touches: `balance`). -/
structure MerchantRow where
  merchantId : String
  balance : ℚ
deriving DecidableEq, Repr

/-- The durable server state the reconciliation handler reads and writes. -/
structure ServerDB where
  txns : List TxnRecord
  users : List UserRow
  merchants : List MerchantRow
deriving DecidableEq, Repr

/-- Test `SELECT * FROM transactions WHERE txn_id = ?` for existence. -/
def txnExists (txns : List TxnRecord) (id : String) : Bool :=
  txns.any (fun r => r.txnId = id)

/-- Embed `UPDATE users SET offline_balance = offline_balance - ? WHERE phone = ?`:
every row whose phone matches (at most one, `phone` is UNIQUE) is debited. -/
def debitUser (users : List UserRow) (phone : String) (amt : ℚ) : List UserRow :=
  users.map (fun u => if u.phone = phone then { u with offlineBalance := u.offlineBalance - amt } else u)

/-- Embed `UPDATE merchants SET balance = balance + ? WHERE merchant_id = ?`. -/
def creditMerchant (ms : List MerchantRow) (mid : String) (amt : ℚ) : List MerchantRow :=
  ms.map (fun m => if m.merchantId = mid then { m with balance := m.balance + amt } else m)

/-- Per-element status strings pushed into `results` by the sync handler. -/
inductive SyncStatus where
  | duplicate
  | amountExceeded
  | error
  | success
deriving DecidableEq, Repr

/-- One element of the sync handler `results` array: `{ txnId, status }`. -/
structure SyncResult where
  txnId : String
  status : SyncStatus
deriving DecidableEq, Repr

/-- The record the sync handler INSERTs for a fresh element
(`status` is the literal string `completed`). -/
def mkRecord (t : SyncTxn) : TxnRecord :=
  { txnId := t.txnId, fromPhone := t.fromPhone, toMerchant := t.toMerchant,
    amount := t.amount, counter := t.counter, signature := t.signature,
    status := "completed" }

/-- Which of the three sub-steps of one element can fail at the storage
layer (`db.run` errors).  The handler only inspects the INSERT error; the
two balance UPDATEs are fire-and-forget. -/
structure FailureSpec where
  insertFails : Bool
  debitFails : Bool
  creditFails : Bool
deriving DecidableEq, Repr

/-- No storage failure. -/
def noFailure : FailureSpec := ⟨false, false, false⟩

/-- The insert branch of the sync handler for one element, with an
explicit storage-failure oracle.  An INSERT that errors (primary-key
violation on `txn_id`, or a storage failure) pushes `error` and changes
nothing; otherwise the record is inserted with status `completed` and the
two balance UPDATEs are issued without their errors being observed. -/
def insertStepF (db : ServerDB) (t : SyncTxn) (f : FailureSpec) : ServerDB × SyncResult :=
  if txnExists db.txns t.txnId || f.insertFails then
    (db, ⟨t.txnId, .error⟩)
  else
    let db1 : ServerDB := { db with txns := db.txns ++ [mkRecord t] }
    let db2 : ServerDB := if f.debitFails then db1 else { db1 with users := debitUser db1.users t.fromPhone t.amount }
    let db3 : ServerDB := if f.creditFails then db2 else { db2 with merchants := creditMerchant db2.merchants t.toMerchant t.amount }
    (db3, ⟨t.txnId, .success⟩)

/-- The insert branch without storage failures. -/
def insertStep (db : ServerDB) (t : SyncTxn) : ServerDB × SyncResult :=
  insertStepF db t noFailure

/-- Outcome of the SELECT-callback checks of one element, which all run
against the database state at the start of the batch. -/
inductive GateOutcome where
  | dup
  | amtExceeded
  | proceed
deriving DecidableEq, Repr

/-- The checks performed in the `db.get` callback of the sync handler:
duplicate `txn_id` first, then the `amount > 500` cap. -/
def gateCheck (db0 : ServerDB) (t : SyncTxn) : GateOutcome :=
  if txnExists db0.txns t.txnId then .dup
  else if 500 < t.amount then .amtExceeded
  else .proceed

/-- Results pushed during the SELECT callbacks, in element order. -/
def phase1Results (db0 : ServerDB) (batch : List SyncTxn) : List SyncResult :=
  batch.filterMap (fun t =>
    match gateCheck db0 t with
    | .dup => some ⟨t.txnId, .duplicate⟩
    | .amtExceeded => some ⟨t.txnId, .amountExceeded⟩
    | .proceed => none)

/-- The elements whose INSERT is actually issued, in element order. -/
def phase2Txns (db0 : ServerDB) (batch : List SyncTxn) : List SyncTxn :=
  batch.filter (fun t => gateCheck db0 t = .proceed)

/-- Run the queued INSERTs sequentially (no storage failures). -/
def processInserts (db : ServerDB) : List SyncTxn → ServerDB × List SyncResult
  | [] => (db, [])
  | t :: ts =>
    let step := insertStep db t
    let rest := processInserts step.1 ts
    (rest.1, step.2 :: rest.2)

/-- The whole `/api/sync` handler body for one batch: the duplicate and
amount checks observe the state at the start of the batch, the surviving
INSERTs then execute in order; the `results` array receives the
SELECT-callback results first and the INSERT-callback results after. -/
def processBatch (db : ServerDB) (batch : List SyncTxn) : ServerDB × List SyncResult :=
  let ins := processInserts db (phase2Txns db batch)
  (ins.1, phase1Results db batch ++ ins.2)

/-- A sequence of `/api/sync` requests processed one after the other. -/
def processBatches (db : ServerDB) : List (List SyncTxn) → ServerDB × List (List SyncResult)
  | [] => (db, [])
  | b :: bs =>
    let step := processBatch db b
    let rest := processBatches step.1 bs
    (rest.1, step.2 :: rest.2)

/-! ### Load-balance endpoint (`/api/load-balance`, `backend/server.js`) -/

/-- Outcome of a `/api/load-balance` request for an authenticated user
whose row was found.  `canLoadOnly r` is the 400 response
`Can only load r more` with `r = 2000 - offline_balance`;
`maxExceeded` is the 400 response `Maximum offline balance is 2000`. -/
inductive LoadResult where
  | invalidAmount
  | maxExceeded
  | canLoadOnly (remaining : ℚ)
  | insufficientBalance
  | success (balance offlineBalance : ℚ)
deriving DecidableEq, Repr

/-- The `/api/load-balance` handler body for an authenticated user with
main balance `balance` and offline balance `offline`, requesting `amount`.
The checks run in source order: `!amount || amount <= 0`, `amount > 2000`,
`offline_balance + amount > 2000`, `balance < amount`, then the UPDATE
that moves `amount` from the main balance to the offline balance. -/
def loadBalance (balance offline amount : ℚ) : LoadResult :=
  if amount ≤ 0 then .invalidAmount
  else if 2000 < amount then .maxExceeded
  else if 2000 < offline + amount then .canLoadOnly (2000 - offline)
  else if balance < amount then .insufficientBalance
  else .success (balance - amount) (offline + amount)

/-! ### Payee-side token verifier (`verifyPaymentToken`, merchant `AppContext`) -/

/-- The signed fields of a payment token, i.e. the rest object obtained by
destructuring `{ signature, publicKey, ...tokenData }`.  The JavaScript
field `from` is rendered `fromId` and `to` is rendered `toId`. -/
structure TokenData where
  fromId : String
  toId : String
  amount : ℚ
  counter : ℤ
  timestamp : ℤ
  txnId : String
deriving DecidableEq, Repr

/-- A payment token as received by the merchant over the transport. -/
structure PayToken where
  fromId : String
  toId : String
  amount : ℚ
  counter : ℤ
  timestamp : ℤ
  txnId : String
  signature : String
  publicKey : String
deriving DecidableEq, Repr

/-- Strip the `signature` and `publicKey` fields. -/
def PayToken.tokenData (t : PayToken) : TokenData :=
  ⟨t.fromId, t.toId, t.amount, t.counter, t.timestamp, t.txnId⟩

/-- The external cryptographic and encoding primitives the verifier calls
(tweetnacl and tweetnacl-util are library code, not part of this
repository).  `decodeBase64` returns `none` when the library would throw
on malformed input; `verifyDetached` is `nacl.sign.detached.verify`. -/
structure CryptoEnv where
  decodeBase64 : String → Option (List ℕ)
  decodeUTF8 : String → List ℕ
  serializeTokenData : TokenData → String
  verifyDetached : (msg sig pk : List ℕ) → Bool

/-- Result object of `verifyPaymentToken`: `{ valid, error? }`. -/
structure VerifyResult where
  valid : Bool
  error : Option String
deriving DecidableEq, Repr

/-- Embed `state.lastCounter[token.from] || -1`.  JavaScript `||` takes the
right operand on any falsy left value, so both a missing entry and a
stored counter of `0` yield `-1`. -/
def lookupLast (m : List (String × ℤ)) (k : String) : ℤ :=
  match m.lookup k with
  | some c => if c = 0 then -1 else c
  | none => -1

/-- The `try` block of `verifyPaymentToken`: signature check, then
`amount > 500`, then `counter <= lastCounter`, then
`Date.now() - timestamp > 60000`.  `none` models a thrown exception
(a base64 decode failure). -/
def verifyPaymentTokenBody (env : CryptoEnv) (lastCounter : List (String × ℤ))
    (now : ℤ) (t : PayToken) : Option VerifyResult := do
  let sigBytes ← env.decodeBase64 t.signature
  let pkBytes ← env.decodeBase64 t.publicKey
  let msgBytes := env.decodeUTF8 (env.serializeTokenData t.tokenData)
  pure (if ¬ env.verifyDetached msgBytes sigBytes pkBytes then
      ⟨false, some "Invalid signature"⟩
    else if 500 < t.amount then
      ⟨false, some "Amount exceeds limit"⟩
    else if t.counter ≤ lookupLast lastCounter t.fromId then
      ⟨false, some "Duplicate transaction"⟩
    else if 60000 < now - t.timestamp then
      ⟨false, some "Token expired"⟩
    else
      ⟨true, none⟩)

/-- The whole of `verifyPaymentToken`, with the `catch` clause returning
`{ valid: false, error: Verification failed }`. -/
def verifyPaymentToken (env : CryptoEnv) (lastCounter : List (String × ℤ))
    (now : ℤ) (t : PayToken) : VerifyResult :=
  (verifyPaymentTokenBody env lastCounter now t).getD ⟨false, some "Verification failed"⟩

/-! ### Payer-side token signer (`signPaymentToken`, wallet `AppContext`) -/

/-- The wallet key pair held in app state (base64 strings). -/
structure KeyPair where
  publicKey : String
  secretKey : String
deriving DecidableEq, Repr

/-- The slice of the wallet app state the signer reads and writes:
the logged-in user phone (`state.user?.phone`), `keyPair`, and the
monotonic `counter` (initially `0`). -/
structure WalletState where
  userPhone : String
  keyPair : Option KeyPair
  counter : ℤ
deriving DecidableEq, Repr

/-- The per-call inputs of one sign operation: the merchant id and amount
passed in, plus the ambient `Date.now()` and the random component of the
generated `txnId`. -/
structure SignReq where
  merchantId : String
  amount : ℚ
  now : ℤ
  rand : String
deriving DecidableEq, Repr

/-- The signing primitive `nacl.sign.detached` composed with the base64
encoding, as called by the wallet (library code, kept abstract). -/
structure SignEnv where
  signDetached : (message : String) → (secretKey : String) → String
  serializeTokenData : TokenData → String

/-- Embed `signPaymentToken(merchantId, amount)`: returns `null` when no
key pair is loaded; otherwise builds the token with the CURRENT stored
counter, signs it, dispatches `INCREMENT_COUNTER` (the reducer case
`counter: state.counter + 1`), and returns the token.  The state update
happens inside the sign operation, before the token is handed to the
transport layer. -/
def signPaymentToken (env : SignEnv) (s : WalletState) (r : SignReq) :
    Option PayToken × WalletState :=
  match s.keyPair with
  | none => (none, s)
  | some kp =>
    let data : TokenData :=
      { fromId := s.userPhone, toId := r.merchantId, amount := r.amount,
        counter := s.counter, timestamp := r.now,
        txnId := "TXN-" ++ toString r.now ++ "-" ++ r.rand }
    let signature := env.signDetached (env.serializeTokenData data) kp.secretKey
    let token : PayToken :=
      { fromId := data.fromId, toId := data.toId, amount := data.amount,
        counter := data.counter, timestamp := data.timestamp,
        txnId := data.txnId, signature := signature, publicKey := kp.publicKey }
    (some token, { s with counter := s.counter + 1 })

/-- A sequence of sign operations on one device, collecting the returned
tokens (a `null` return contributes nothing). -/
def signSeq (env : SignEnv) (s : WalletState) : List SignReq → List PayToken × WalletState
  | [] => ([], s)
  | r :: rs =>
    let (t, s1) := signPaymentToken env s r
    let (ts, s2) := signSeq env s1 rs
    (t.toList ++ ts, s2)

/-! ### Response emission of the sync handler (`sendResponse`, `backend/server.js`) -/

/-- The closure state of the sync handler that `sendResponse` inspects:
the `processed` and `failed` counters and the `responseSent` flag, plus
instrumentation recording each `res.json` emission (`emittedAfter` is the
number of terminal per-element outcomes that had been reached when the
response fired). -/
structure RespState where
  processed : ℕ
  failed : ℕ
  responseSent : Bool
  emissions : ℕ
  emittedAfter : Option ℕ
deriving DecidableEq, Repr

/-- The closure state before any callback has run. -/
def initRespState : RespState := ⟨0, 0, false, 0, none⟩

/-- The counter update at the head of each per-element callback:
`processed++` on success, `failed++` on any other terminal outcome. -/
def bumpCounts (s : RespState) (st : SyncStatus) : RespState :=
  match st with
  | .success => { s with processed := s.processed + 1 }
  | _ => { s with failed := s.failed + 1 }

/-- One per-element callback of the sync handler: increment `processed`
(success) or `failed` (any other terminal outcome), then call
`sendResponse`, which emits the response exactly when all `n` elements
are terminal and `responseSent` is still false. -/
def respStep (n : ℕ) (s : RespState) (st : SyncStatus) : RespState :=
  if ¬ (bumpCounts s st).responseSent ∧ (bumpCounts s st).processed + (bumpCounts s st).failed = n then
    { bumpCounts s st with
      responseSent := true
      emissions := (bumpCounts s st).emissions + 1
      emittedAfter := some ((bumpCounts s st).processed + (bumpCounts s st).failed) }
  else bumpCounts s st

/-- Run the per-element callbacks in the order their terminal outcomes
are reached. -/
def runResponses (n : ℕ) (sts : List SyncStatus) : RespState :=
  sts.foldl (respStep n) initRespState

/-- The full response behaviour of the sync handler on one well-formed
batch: the statuses of `processBatch`, in callback order, drive
`sendResponse`. -/
def syncResponses (db : ServerDB) (batch : List SyncTxn) : RespState :=
  runResponses batch.length (((processBatch db batch).2).map (fun r => r.status))

/-- A concrete instantiation of the external tweetnacl primitives, used to
evaluate the verifier on concrete tokens: base64 decoding fails exactly on
the string `not-base64`, and every decodable signature verifies. -/
def testEnv : CryptoEnv :=
  { decodeBase64 := fun s => if s = "not-base64" then none else some []
    decodeUTF8 := fun _ => []
    serializeTokenData := fun _ => ""
    verifyDetached := fun _ _ _ => true }

/-- A concrete instantiation of the wallet signing primitive. -/
def testSignEnv : SignEnv :=
  { signDetached := fun m _ => "sig-" ++ m
    serializeTokenData := fun d => d.txnId }

/-- The payload of the merchant QR code (`generateQR` in the merchant
`HomeScreen`): `{ merchantId, merchantName, bleId, timestamp }`.  There is
no nonce field. -/
structure QRData where
  merchantId : String
  merchantName : String
  bleId : String
  timestamp : ℤ
deriving DecidableEq, Repr

/-- Embed `generateQR`: the rotation timer calls this every 18 seconds
with the current time. -/
def generateQR (merchantId merchantName : String) (now : ℤ) : QRData :=
  { merchantId := merchantId, merchantName := merchantName,
    bleId := "TOKPAY-" ++ merchantId, timestamp := now }

end TokPay

namespace TokPay

/-! ### Per-token-id accounting for the sync handler -/

/-- The PRIMARY KEY invariant of the `transactions` table: token ids are
pairwise distinct. -/
def uniqueIds (db : ServerDB) : Prop :=
  (db.txns.map (fun r => r.txnId)).Nodup

/-- Number of stored transaction records carrying a given token id. -/
def recordCount (db : ServerDB) (id : String) : ℕ :=
  (db.txns.map (fun r => r.txnId)).count id

/-- Number of `success` outcomes for a given token id in one response; in
the no-storage-failure model the pair of balance mutations (payer debit,
merchant credit) is applied exactly once per `success` outcome. -/
def successCountBatch (rs : List SyncResult) (id : String) : ℕ :=
  (rs.filter (fun r => r.txnId = id ∧ r.status = SyncStatus.success)).length

/-- Number of `success` outcomes for a given token id across a sequence
of responses. -/
def successCount (rss : List (List SyncResult)) (id : String) : ℕ :=
  (rss.map (fun rs => successCountBatch rs id)).sum

/-- An INSERT for an already-stored token id errors and changes nothing. -/
lemma insertStep_of_exists (db : ServerDB) (t : SyncTxn)
    (h : txnExists db.txns t.txnId = true) :
    insertStep db t = (db, ⟨t.txnId, SyncStatus.error⟩) := by
  unfold insertStep insertStepF noFailure
  simp [h]

/-- An INSERT for a fresh token id stores the record and applies the two
balance mutations. -/
lemma insertStep_of_fresh (db : ServerDB) (t : SyncTxn)
    (h : txnExists db.txns t.txnId = false) :
    insertStep db t =
      ({ txns := db.txns ++ [mkRecord t],
         users := debitUser db.users t.fromPhone t.amount,
         merchants := creditMerchant db.merchants t.toMerchant t.amount },
       ⟨t.txnId, SyncStatus.success⟩) := by
  unfold insertStep insertStepF noFailure
  simp [h]

/-- One INSERT adds a record for `id` exactly when it reports `success`
for `id`, and it preserves id uniqueness. -/
lemma insertStep_count (db : ServerDB) (t : SyncTxn) (id : String) :
    (recordCount (insertStep db t).1 id =
      recordCount db id +
        (if t.txnId = id ∧ (insertStep db t).2.status = SyncStatus.success then 1 else 0)) ∧
    (uniqueIds db → uniqueIds (insertStep db t).1) := by
  cases h : txnExists db.txns t.txnId with
  | true =>
    rw [insertStep_of_exists db t h]
    constructor
    · simp
    · exact fun hu => hu
  | false =>
    rw [insertStep_of_fresh db t h]
    have hnotmem : t.txnId ∉ db.txns.map (fun r => r.txnId) := by
      intro hmem
      obtain ⟨r, hr, hrid⟩ := List.mem_map.mp hmem
      have : txnExists db.txns t.txnId = true := by
        unfold txnExists
        rw [List.any_eq_true]
        exact ⟨r, hr, by simp [hrid]⟩
      rw [h] at this
      exact Bool.false_ne_true this
    constructor
    · by_cases hid : t.txnId = id <;>
        simp [recordCount, mkRecord, List.count_append, List.count_cons, hid]
    · intro hu
      simp only [uniqueIds, List.map_append] at hu ⊢
      rw [List.nodup_append]
      exact ⟨hu, List.nodup_singleton _, by simpa [List.disjoint_singleton] using hnotmem⟩

/-- Each issued INSERT produces exactly one per-element result. -/
lemma processInserts_length (db : ServerDB) (ts : List SyncTxn) :
    (processInserts db ts).2.length = ts.length := by
  induction ts generalizing db with
  | nil => rfl
  | cons t ts ih =>
    simp only [processInserts, List.length_cons]
    rw [ih]

/-- Every batch element reaches exactly one of the two phases, so the
`results` array has one entry per element. -/
lemma phase_length (db : ServerDB) : ∀ batch : List SyncTxn,
    (phase1Results db batch).length + (phase2Txns db batch).length = batch.length := by
  intro batch
  induction batch with
  | nil => rfl
  | cons t ts ih =>
    cases h : gateCheck db t with
    | dup =>
      simp [phase1Results, phase2Txns, List.filterMap_cons, List.filter_cons, h] at ih ⊢
      omega
    | amtExceeded =>
      simp [phase1Results, phase2Txns, List.filterMap_cons, List.filter_cons, h] at ih ⊢
      omega
    | proceed =>
      simp [phase1Results, phase2Txns, List.filterMap_cons, List.filter_cons, h] at ih ⊢
      omega

/-- The sync handler produces exactly one terminal outcome per element. -/
lemma processBatch_length (db : ServerDB) (batch : List SyncTxn) :
    (processBatch db batch).2.length = batch.length := by
  simp only [processBatch, List.length_append, processInserts_length]
  exact phase_length db batch

/-- The counter bump touches only `processed`/`failed` and adds exactly
one to their sum. -/
lemma bumpCounts_spec (s : RespState) (st : SyncStatus) :
    (bumpCounts s st).responseSent = s.responseSent ∧
    (bumpCounts s st).emissions = s.emissions ∧
    (bumpCounts s st).emittedAfter = s.emittedAfter ∧
    (bumpCounts s st).processed + (bumpCounts s st).failed = s.processed + s.failed + 1 := by
  cases st <;> refine ⟨rfl, rfl, rfl, ?_⟩ <;> simp [bumpCounts] <;> omega

/-- A `sendResponse` call that sees all `n` outcomes reached and the flag
still clear emits the response and sets the flag. -/
lemma respStep_emit (n : ℕ) (s : RespState) (st : SyncStatus)
    (hsent : s.responseSent = false) (h : s.processed + s.failed + 1 = n) :
    (respStep n s st).emissions = s.emissions + 1 ∧
    (respStep n s st).emittedAfter = some n ∧
    (respStep n s st).responseSent = true ∧
    (respStep n s st).processed + (respStep n s st).failed = n := by
  obtain ⟨b1, b2, b3, b4⟩ := bumpCounts_spec s st
  unfold respStep
  rw [if_pos ⟨by rw [b1, hsent]; exact Bool.false_ne_true, by omega⟩]
  refine ⟨?_, ?_, rfl, ?_⟩
  · show (bumpCounts s st).emissions + 1 = s.emissions + 1
    rw [b2]
  · show some ((bumpCounts s st).processed + (bumpCounts s st).failed) = some n
    exact congrArg some (by omega)
  · show (bumpCounts s st).processed + (bumpCounts s st).failed = n
    omega

/-- A `sendResponse` call before the last outcome leaves the emission
state untouched and just counts the outcome. -/
lemma respStep_no_emit (n : ℕ) (s : RespState) (st : SyncStatus)
    (h : s.processed + s.failed + 1 ≠ n) :
    (respStep n s st).emissions = s.emissions ∧
    (respStep n s st).emittedAfter = s.emittedAfter ∧
    (respStep n s st).responseSent = s.responseSent ∧
    (respStep n s st).processed + (respStep n s st).failed = s.processed + s.failed + 1 := by
  obtain ⟨b1, b2, b3, b4⟩ := bumpCounts_spec s st
  unfold respStep
  rw [if_neg (by rintro ⟨-, hc2⟩; omega)]
  exact ⟨b2, b3, b1, b4⟩

/-- Folding the callbacks over a non-empty outcome list of length `n`
starting from a clear state emits exactly one response, at the point
where all `n` outcomes are terminal. -/
lemma runResponses_go (n : ℕ) : ∀ (sts : List SyncStatus) (s : RespState),
    s.responseSent = false → s.emissions = 0 → s.emittedAfter = none →
    s.processed + s.failed + sts.length = n → sts ≠ [] →
    (sts.foldl (respStep n) s).emissions = 1 ∧
    (sts.foldl (respStep n) s).emittedAfter = some n ∧
    (sts.foldl (respStep n) s).processed + (sts.foldl (respStep n) s).failed = n := by
  intro sts
  induction sts with
  | nil =>
    intro s _ _ _ _ hne
    exact absurd rfl hne
  | cons st sts ih =>
    intro s hsent hem haft hsum _
    by_cases hnil : sts = []
    · subst hnil
      have h1 : s.processed + s.failed + 1 = n := by simpa using hsum
      obtain ⟨e1, e2, _, e4⟩ := respStep_emit n s st hsent h1
      simp only [List.foldl_cons, List.foldl_nil]
      exact ⟨by rw [e1, hem], e2, e4⟩
    · have hlen : 1 ≤ sts.length := by
        cases sts with
        | nil => exact absurd rfl hnil
        | cons a l => simp
      have hne1 : s.processed + s.failed + 1 ≠ n := by
        simp only [List.length_cons] at hsum
        omega
      obtain ⟨e1, e2, e3, e4⟩ := respStep_no_emit n s st hne1
      simp only [List.foldl_cons]
      exact ih (respStep n s st) (by rw [e3, hsent]) (by rw [e1, hem]) (by rw [e2, haft])
        (by simp only [List.length_cons] at hsum; omega) hnil

/-- Across a run of INSERTs, the number of stored records per id grows by
exactly the number of `success` outcomes for that id, and id uniqueness
is preserved. -/
lemma processInserts_spec (id : String) : ∀ (ts : List SyncTxn) (db : ServerDB),
    (recordCount (processInserts db ts).1 id =
      recordCount db id + successCountBatch (processInserts db ts).2 id) ∧
    (uniqueIds db → uniqueIds (processInserts db ts).1) := by
  intro ts
  induction ts with
  | nil =>
    intro db
    exact ⟨by simp [processInserts, successCountBatch], fun hu => hu⟩
  | cons t ts ih =>
    intro db
    obtain ⟨hcount, hnodup⟩ := insertStep_count db t id
    obtain ⟨ihc, ihn⟩ := ih (insertStep db t).1
    have h2 : (insertStep db t).2.txnId = t.txnId := by
      cases h : txnExists db.txns t.txnId with
      | true => rw [insertStep_of_exists db t h]
      | false => rw [insertStep_of_fresh db t h]
    constructor
    · simp only [processInserts, successCountBatch, List.filter_cons]
      by_cases hcond : t.txnId = id ∧ (insertStep db t).2.status = SyncStatus.success
      · rw [if_pos hcond] at hcount
        simp only [successCountBatch] at ihc
        simp [h2, hcond.1, hcond.2, ihc, hcount]
        omega
      · rw [if_neg hcond] at hcount
        simp only [successCountBatch] at ihc
        have hnc : ¬((insertStep db t).2.txnId = id ∧ (insertStep db t).2.status = SyncStatus.success) := by
          rw [h2]
          exact hcond
        simp [hnc, ihc, hcount]
    · exact fun hu => ihn (hnodup hu)

/-- The SELECT-callback results are never `success`. -/
lemma phase1_no_success (db : ServerDB) (id : String) : ∀ batch : List SyncTxn,
    successCountBatch (phase1Results db batch) id = 0 := by
  intro batch
  induction batch with
  | nil => rfl
  | cons t ts ih =>
    cases h : gateCheck db t with
    | dup =>
      simp [phase1Results, successCountBatch, List.filterMap_cons, h, List.filter_cons] at ih ⊢
      exact ih
    | amtExceeded =>
      simp [phase1Results, successCountBatch, List.filterMap_cons, h, List.filter_cons] at ih ⊢
      exact ih
    | proceed =>
      simp [phase1Results, successCountBatch, List.filterMap_cons, h] at ih ⊢
      exact ih

/-- One batch grows the per-id record count by exactly its per-id
`success` count and preserves id uniqueness. -/
lemma processBatch_spec (db : ServerDB) (batch : List SyncTxn) (id : String) :
    (recordCount (processBatch db batch).1 id =
      recordCount db id + successCountBatch (processBatch db batch).2 id) ∧
    (uniqueIds db → uniqueIds (processBatch db batch).1) := by
  obtain ⟨hc, hn⟩ := processInserts_spec id (phase2Txns db batch) db
  constructor
  · simp only [processBatch, successCountBatch, List.filter_append, List.length_append]
    have h1 := phase1_no_success db id batch
    simp only [successCountBatch] at h1 hc
    rw [h1]
    simpa using hc
  · exact hn

/-- A whole sequence of batches grows the per-id record count by exactly
the total per-id `success` count and preserves id uniqueness. -/
lemma processBatches_spec (id : String) : ∀ (batches : List (List SyncTxn)) (db : ServerDB),
    (recordCount (processBatches db batches).1 id =
      recordCount db id + successCount (processBatches db batches).2 id) ∧
    (uniqueIds db → uniqueIds (processBatches db batches).1) := by
  intro batches
  induction batches with
  | nil =>
    intro db
    exact ⟨by simp [processBatches, successCount], fun hu => hu⟩
  | cons b bs ih =>
    intro db
    obtain ⟨hc, hn⟩ := processBatch_spec db b id
    obtain ⟨ihc, ihn⟩ := ih (processBatch db b).1
    constructor
    · simp only [processBatches, successCount, List.map_cons, List.sum_cons]
      simp only [successCount] at ihc
      rw [ihc, hc]
      omega
    · exact fun hu => ihn (hn hu)

/-- A single-element batch whose token id is already stored responds
`duplicate` and leaves the database — records and both balance tables —
exactly as it was. -/
lemma processBatch_duplicate (db : ServerDB) (t : SyncTxn)
    (h : txnExists db.txns t.txnId = true) :
    processBatch db [t] = (db, [⟨t.txnId, SyncStatus.duplicate⟩]) := by
  unfold processBatch phase1Results phase2Txns gateCheck
  simp [h, processInserts]

/-! ### Claim theorems -/

/-- C9, counterexample: the claim says every request with
`offline + amount > 2000` is rejected with the exact remaining capacity
reported, but a request of `2100` against offline balance `0` (so
`offline + amount = 2100 > 2000`) is rejected by the earlier
`amount > 2000` guard with the generic maximum-balance error, not with
the remaining capacity `2000 - 0`. -/
theorem loadBalance_cap_overshoot_counterexample :
    (2000 : ℚ) < 0 + 2100 ∧
    loadBalance 5000 0 2100 = LoadResult.maxExceeded ∧
    ¬ loadBalance 5000 0 2100 = LoadResult.canLoadOnly (2000 - 0) := by
  refine ⟨by norm_num, by decide, by decide⟩

/-- C9 (amended): a load-balance request for `A` against main balance `B`
and offline balance `O` succeeds, moving `A` from the main to the offline
balance, iff `0 < A`, `A ≤ 2000`, `O + A ≤ 2000` and `A ≤ B`; and whenever
`A ≤ 2000` but `O + A` exceeds the cap, the request is rejected reporting
the exact remaining capacity `2000 - O` (a request with `A > 2000` is
instead rejected with the generic maximum-balance error). -/
theorem loadBalance_spec (B O A : ℚ) :
    ((∃ b o, loadBalance B O A = LoadResult.success b o) ↔
      (0 < A ∧ A ≤ 2000 ∧ O + A ≤ 2000 ∧ A ≤ B)) ∧
    (∀ b o, loadBalance B O A = LoadResult.success b o → b = B - A ∧ o = O + A) ∧
    (0 < A → A ≤ 2000 → 2000 < O + A → loadBalance B O A = LoadResult.canLoadOnly (2000 - O)) := by
  unfold loadBalance
  refine ⟨⟨?_, ?_⟩, ?_, ?_⟩
  · rintro ⟨b, o, h⟩
    split_ifs at h with h1 h2 h3 h4
    exact ⟨by linarith [not_le.mp h1], by linarith [not_lt.mp h2], by linarith [not_lt.mp h3],
      by linarith [not_lt.mp h4]⟩
  · rintro ⟨hA, hA2, hOA, hAB⟩
    refine ⟨B - A, O + A, ?_⟩
    split_ifs with h1 h2 h3 h4
    · exact absurd h1 (by linarith)
    · exact absurd h2 (by linarith)
    · exact absurd h3 (by linarith)
    · exact absurd h4 (by linarith)
    · rfl
  · intro b o h
    split_ifs at h
    cases h
    exact ⟨rfl, rfl⟩
  · intro h0 h1 h2
    split_ifs with g1 g2
    · exact absurd g1 (by linarith)
    · exact absurd g2 (by linarith)
    · rfl

/-- C9, witness: with main balance `2000`, offline balance `1800`, a
request of `400` is rejected reporting that at most `200` more can be
loaded. -/
theorem loadBalance_spec_witness :
    loadBalance 2000 1800 400 = LoadResult.canLoadOnly 200 := by
  have h := (loadBalance_spec 2000 1800 400).2.2 (by norm_num) (by norm_num) (by norm_num)
  norm_num at h
  exact h

/-- Reduction of the verifier when both base64 decodes succeed: the
result is the plain policy-check chain of the source. -/
lemma verifyPaymentToken_eq_of_decode (env : CryptoEnv) (lc : List (String × ℤ))
    (now : ℤ) (t : PayToken) (sb pb : List ℕ)
    (hs : env.decodeBase64 t.signature = some sb)
    (hp : env.decodeBase64 t.publicKey = some pb) :
    verifyPaymentToken env lc now t =
      (if ¬ env.verifyDetached (env.decodeUTF8 (env.serializeTokenData t.tokenData)) sb pb then
        ⟨false, some "Invalid signature"⟩
      else if 500 < t.amount then
        ⟨false, some "Amount exceeds limit"⟩
      else if t.counter ≤ lookupLast lc t.fromId then
        ⟨false, some "Duplicate transaction"⟩
      else if 60000 < now - t.timestamp then
        ⟨false, some "Token expired"⟩
      else
        ⟨true, none⟩) := by
  unfold verifyPaymentToken verifyPaymentTokenBody
  rw [hs, hp]
  rfl

/-- Reduction of the verifier when decoding the signature throws. -/
lemma verifyPaymentToken_eq_of_sig_throw (env : CryptoEnv) (lc : List (String × ℤ))
    (now : ℤ) (t : PayToken) (hs : env.decodeBase64 t.signature = none) :
    verifyPaymentToken env lc now t = ⟨false, some "Verification failed"⟩ := by
  unfold verifyPaymentToken verifyPaymentTokenBody
  rw [hs]
  rfl

/-- Reduction of the verifier when decoding the public key throws. -/
lemma verifyPaymentToken_eq_of_pk_throw (env : CryptoEnv) (lc : List (String × ℤ))
    (now : ℤ) (t : PayToken) (sb : List ℕ)
    (hs : env.decodeBase64 t.signature = some sb)
    (hp : env.decodeBase64 t.publicKey = none) :
    verifyPaymentToken env lc now t = ⟨false, some "Verification failed"⟩ := by
  unfold verifyPaymentToken verifyPaymentTokenBody
  rw [hs, hp]
  rfl

/-- C10: the payee-side verifier is total: a base64 decode failure on the
signature or public key field (a thrown exception in the source) yields
`valid: false` with reason `Verification failed` instead of propagating,
and every rejecting outcome carries a non-empty reason string. -/
theorem verifyPaymentToken_total (env : CryptoEnv) (lc : List (String × ℤ))
    (now : ℤ) (t : PayToken) :
    (env.decodeBase64 t.signature = none ∨ env.decodeBase64 t.publicKey = none →
      verifyPaymentToken env lc now t = ⟨false, some "Verification failed"⟩) ∧
    ((verifyPaymentToken env lc now t).valid = false →
      ∃ s, (verifyPaymentToken env lc now t).error = some s ∧ s.length ≠ 0) := by
  constructor
  · intro h
    rcases h with h | h
    · exact verifyPaymentToken_eq_of_sig_throw env lc now t h
    · cases hs : env.decodeBase64 t.signature with
      | none => exact verifyPaymentToken_eq_of_sig_throw env lc now t hs
      | some sb => exact verifyPaymentToken_eq_of_pk_throw env lc now t sb hs h
  · intro hv
    cases hs : env.decodeBase64 t.signature with
    | none =>
      rw [verifyPaymentToken_eq_of_sig_throw env lc now t hs]
      exact ⟨"Verification failed", rfl, by decide⟩
    | some sb =>
      cases hp : env.decodeBase64 t.publicKey with
      | none =>
        rw [verifyPaymentToken_eq_of_pk_throw env lc now t sb hs hp]
        exact ⟨"Verification failed", rfl, by decide⟩
      | some pb =>
        rw [verifyPaymentToken_eq_of_decode env lc now t sb pb hs hp] at hv ⊢
        by_cases h1 : env.verifyDetached (env.decodeUTF8 (env.serializeTokenData t.tokenData)) sb pb = true
        · by_cases h2 : (500 : ℚ) < t.amount
          · exact ⟨"Amount exceeds limit", by simp [h1, h2], by decide⟩
          · by_cases h3 : t.counter ≤ lookupLast lc t.fromId
            · exact ⟨"Duplicate transaction", by simp [h1, h2, h3], by decide⟩
            · by_cases h4 : (60000 : ℤ) < now - t.timestamp
              · exact ⟨"Token expired", by simp [h1, h2, h3, h4], by decide⟩
              · exfalso
                rw [if_neg (not_not_intro h1), if_neg h2, if_neg h3, if_neg h4] at hv
                simp at hv
        · exact ⟨"Invalid signature", by simp [h1], by decide⟩

/-- C10, witness: a token whose signature field is not valid base64 is
rejected with `Verification failed`, and the reason is non-empty. -/
theorem verifyPaymentToken_total_witness :
    verifyPaymentToken testEnv [] 0 ⟨"9812345670", "M001", 100, 1, 0, "T1", "not-base64", "pk"⟩
      = ⟨false, some "Verification failed"⟩ ∧
    ∃ s, (verifyPaymentToken testEnv [] 0 ⟨"9812345670", "M001", 100, 1, 0, "T1", "not-base64", "pk"⟩).error
      = some s ∧ s.length ≠ 0 := by
  have h := verifyPaymentToken_total testEnv [] 0 ⟨"9812345670", "M001", 100, 1, 0, "T1", "not-base64", "pk"⟩
  exact ⟨h.1 (Or.inl (by decide)), h.2 (by have := h.1 (Or.inl (by decide)); rw [this])⟩

/-- C6, counterexample: a token that is simultaneously stale (its age
exceeds the 60-second window) and over the 500 cap is rejected with
`Amount exceeds limit`, not `Token expired`: the amount-cap check runs
before the freshness check, contradicting the claimed order. -/
theorem verifyPaymentToken_stale_overcap_counterexample :
    (60000 : ℤ) < 100000 - 0 ∧ (500 : ℚ) < 600 ∧
    verifyPaymentToken testEnv [] 100000 ⟨"9812345670", "M001", 600, 1, 0, "T1", "sig", "pk"⟩
      = ⟨false, some "Amount exceeds limit"⟩ ∧
    ¬ verifyPaymentToken testEnv [] 100000 ⟨"9812345670", "M001", 600, 1, 0, "T1", "sig", "pk"⟩
      = ⟨false, some "Token expired"⟩ := by
  refine ⟨by decide, by decide, by decide, by decide⟩

/-- C6 (amended): after the signature check, `verifyPaymentToken` applies
its policy checks in the order amount cap (`Amount exceeds limit`), then
replay counter (`Duplicate transaction`), then freshness
(`Token expired`), short-circuiting on the first failure; there is no
session-binding check at all.  In particular a token both stale and over
the cap is rejected as over-cap. -/
theorem verifyPaymentToken_check_order (env : CryptoEnv) (lc : List (String × ℤ))
    (now : ℤ) (t : PayToken) (sb pb : List ℕ)
    (hs : env.decodeBase64 t.signature = some sb)
    (hp : env.decodeBase64 t.publicKey = some pb)
    (hsig : env.verifyDetached (env.decodeUTF8 (env.serializeTokenData t.tokenData)) sb pb = true) :
    (500 < t.amount → verifyPaymentToken env lc now t = ⟨false, some "Amount exceeds limit"⟩) ∧
    (t.amount ≤ 500 → t.counter ≤ lookupLast lc t.fromId →
      verifyPaymentToken env lc now t = ⟨false, some "Duplicate transaction"⟩) ∧
    (t.amount ≤ 500 → lookupLast lc t.fromId < t.counter → 60000 < now - t.timestamp →
      verifyPaymentToken env lc now t = ⟨false, some "Token expired"⟩) ∧
    (t.amount ≤ 500 → lookupLast lc t.fromId < t.counter → now - t.timestamp ≤ 60000 →
      verifyPaymentToken env lc now t = ⟨true, none⟩) := by
  rw [verifyPaymentToken_eq_of_decode env lc now t sb pb hs hp]
  refine ⟨?_, ?_, ?_, ?_⟩
  · intro ha
    rw [if_neg (not_not_intro hsig), if_pos ha]
  · intro ha hc
    rw [if_neg (not_not_intro hsig), if_neg (not_lt.mpr ha), if_pos hc]
  · intro ha hc hts
    rw [if_neg (not_not_intro hsig), if_neg (not_lt.mpr ha), if_neg (not_le.mpr hc), if_pos hts]
  · intro ha hc hts
    rw [if_neg (not_not_intro hsig), if_neg (not_lt.mpr ha), if_neg (not_le.mpr hc),
      if_neg (not_lt.mpr hts)]

/-- C6, witness: a fresh in-cap token with a verifying signature and a
counter above the last recorded one is accepted. -/
theorem verifyPaymentToken_check_order_witness :
    verifyPaymentToken testEnv [] 50000 ⟨"9812345670", "M001", 100, 1, 0, "T1", "sig", "pk"⟩
      = ⟨true, none⟩ := by
  exact (verifyPaymentToken_check_order testEnv [] 50000
    ⟨"9812345670", "M001", 100, 1, 0, "T1", "sig", "pk"⟩ [] [] rfl rfl rfl).2.2.2
    (by norm_num) (by decide) (by decide)

/-- C4: the verifier performs no session binding: a QR rotation changes
the broadcast payload, but `verifyPaymentToken` takes no session input,
tokens carry no session nonce, and a token minted under the earlier QR is
accepted after rotation; no `SessionMismatch` rejection exists in the
code. -/
theorem verifyPaymentToken_no_session_binding :
    (generateQR "M001" "Demo Merchant" 0).timestamp = 0 ∧
    (generateQR "M001" "Demo Merchant" 18000).timestamp = 18000 ∧
    verifyPaymentToken testEnv [] 20000 ⟨"9812345670", "M001", 100, 1, 500, "T1", "sig", "pk"⟩
      = ⟨true, none⟩ := by
  refine ⟨rfl, rfl, by decide⟩

/-- C2: the sync handler inserts a transaction and mutates both balances
without any signature re-verification: an element whose signature is the
literal string `garbage-signature` (which no key could have produced and
which the handler never even decodes) is recorded as `completed`, the
payer offline balance is debited and the merchant balance credited. -/
theorem syncAcceptsUnverifiedSignature :
    processBatch ⟨[], [⟨"9812345670", 1000, 500⟩], [⟨"M001", 0⟩]⟩
        [⟨"T1", "9812345670", "M001", 100, 7, "garbage-signature"⟩] =
      (⟨[⟨"T1", "9812345670", "M001", 100, 7, "garbage-signature", "completed"⟩],
        [⟨"9812345670", 1000, 400⟩], [⟨"M001", 100⟩]⟩,
       [⟨"T1", SyncStatus.success⟩]) := by
  norm_num [processBatch, phase1Results, phase2Txns, processInserts, insertStep, insertStepF,
    noFailure, gateCheck, txnExists, mkRecord, debitUser, creditMerchant]

/-- C3: the server-side reconciler has no counter check: with a completed
record at counter `5` already stored for the payer, a fresh token id with
counter `4` from the same payer is accepted as `success`; and the
payee-side check treats a stored last counter of `0` as `-1` (JavaScript
`|| -1` on a falsy value), so a replayed counter `0` is accepted there
too. -/
theorem syncAcceptsNonMonotonicCounter :
    (processBatch ⟨[⟨"T1", "9812345670", "M001", 100, 5, "sig1", "completed"⟩],
        [⟨"9812345670", 1000, 500⟩], [⟨"M001", 0⟩]⟩
        [⟨"T2", "9812345670", "M001", 50, 4, "sig2"⟩]).2 = [⟨"T2", SyncStatus.success⟩] ∧
    verifyPaymentToken testEnv [("9812345670", 0)] 1000
        ⟨"9812345670", "M001", 100, 0, 500, "T9", "sig", "pk"⟩ = ⟨true, none⟩ := by
  exact ⟨by decide, by decide⟩

/-- C1: reconciliation is idempotent per token id: starting from any
store satisfying the token-id PRIMARY KEY invariant, across any sequence
of batches at most one transaction record ever exists per token id, the
pair of balance mutations is applied exactly as many times as a record is
created for that id — hence at most once, and exactly once for each
created record — and a single-element resubmission whose token id already
exists responds `duplicate` leaving the store, including both balance
tables, unchanged. -/
theorem syncIdempotentPerTokenId (db0 : ServerDB) (h : uniqueIds db0)
    (batches : List (List SyncTxn)) :
    uniqueIds (processBatches db0 batches).1 ∧
    (∀ id, recordCount (processBatches db0 batches).1 id ≤ 1) ∧
    (∀ id, recordCount db0 id + successCount (processBatches db0 batches).2 id =
      recordCount (processBatches db0 batches).1 id) ∧
    (∀ id, successCount (processBatches db0 batches).2 id ≤ 1) ∧
    (∀ (db : ServerDB) (t : SyncTxn), txnExists db.txns t.txnId = true →
      processBatch db [t] = (db, [⟨t.txnId, SyncStatus.duplicate⟩])) := by
  have huniq : uniqueIds (processBatches db0 batches).1 :=
    (processBatches_spec "" batches db0).2 h
  have hle : ∀ id, recordCount (processBatches db0 batches).1 id ≤ 1 := by
    intro id
    exact (List.nodup_iff_count_le_one.mp huniq) id
  have heq : ∀ id, recordCount db0 id + successCount (processBatches db0 batches).2 id =
      recordCount (processBatches db0 batches).1 id := by
    intro id
    exact ((processBatches_spec id batches db0).1).symm
  refine ⟨huniq, hle, heq, ?_, ?_⟩
  · intro id
    have h1 := hle id
    have h2 := heq id
    omega
  · intro db t ht
    exact processBatch_duplicate db t ht

/-- C1, witness: submitting the same element in two consecutive batches
to an initially empty store keeps at most one record and at most one
balance application for its token id, and resubmitting an already-stored
token id yields `duplicate` with the store unchanged. -/
theorem syncIdempotentPerTokenId_witness :
    uniqueIds (processBatches ⟨[], [⟨"9812345670", 1000, 500⟩], [⟨"M001", 0⟩]⟩
      [[⟨"T1", "9812345670", "M001", 100, 1, "sig"⟩],
       [⟨"T1", "9812345670", "M001", 100, 1, "sig"⟩]]).1 ∧
    recordCount (processBatches ⟨[], [⟨"9812345670", 1000, 500⟩], [⟨"M001", 0⟩]⟩
      [[⟨"T1", "9812345670", "M001", 100, 1, "sig"⟩],
       [⟨"T1", "9812345670", "M001", 100, 1, "sig"⟩]]).1 "T1" ≤ 1 ∧
    successCount (processBatches ⟨[], [⟨"9812345670", 1000, 500⟩], [⟨"M001", 0⟩]⟩
      [[⟨"T1", "9812345670", "M001", 100, 1, "sig"⟩],
       [⟨"T1", "9812345670", "M001", 100, 1, "sig"⟩]]).2 "T1" ≤ 1 ∧
    processBatch ⟨[⟨"T1", "9812345670", "M001", 100, 1, "sig", "completed"⟩],
        [⟨"9812345670", 1000, 400⟩], [⟨"M001", 100⟩]⟩
        [⟨"T1", "9812345670", "M001", 100, 1, "sig"⟩] =
      (⟨[⟨"T1", "9812345670", "M001", 100, 1, "sig", "completed"⟩],
        [⟨"9812345670", 1000, 400⟩], [⟨"M001", 100⟩]⟩,
       [⟨"T1", SyncStatus.duplicate⟩]) := by
  have h := syncIdempotentPerTokenId ⟨[], [⟨"9812345670", 1000, 500⟩], [⟨"M001", 0⟩]⟩
    (by simp [uniqueIds])
    [[⟨"T1", "9812345670", "M001", 100, 1, "sig"⟩],
     [⟨"T1", "9812345670", "M001", 100, 1, "sig"⟩]]
  exact ⟨h.1, h.2.1 "T1", h.2.2.2.1 "T1",
    h.2.2.2.2 ⟨[⟨"T1", "9812345670", "M001", 100, 1, "sig", "completed"⟩],
        [⟨"9812345670", 1000, 400⟩], [⟨"M001", 100⟩]⟩
      ⟨"T1", "9812345670", "M001", 100, 1, "sig"⟩ (by decide)⟩

/-- C8: for every well-formed non-empty batch, the sync handler of
`backend/server.js` emits exactly one response, and it does so precisely
when all `batch.length` elements have reached a terminal per-element
outcome; the `responseSent` flag prevents any second emission. -/
theorem syncResponseExactlyOnce (db : ServerDB) (batch : List SyncTxn) (hne : batch ≠ []) :
    (syncResponses db batch).emissions = 1 ∧
    (syncResponses db batch).emittedAfter = some batch.length ∧
    (syncResponses db batch).processed + (syncResponses db batch).failed = batch.length := by
  unfold syncResponses runResponses
  have hlen : ((processBatch db batch).2.map (fun r => r.status)).length = batch.length := by
    rw [List.length_map, processBatch_length]
  have hne2 : (processBatch db batch).2.map (fun r => r.status) ≠ [] := by
    intro hc
    rw [hc] at hlen
    exact hne (List.eq_nil_of_length_eq_zero hlen.symm)
  exact runResponses_go batch.length _ initRespState rfl rfl rfl (by simp [hlen, initRespState]) hne2

/-- C8, witness: on a concrete single-element batch the handler emits one
response, after the single terminal outcome. -/
theorem syncResponseExactlyOnce_witness :
    (syncResponses ⟨[], [⟨"9812345670", 1000, 500⟩], [⟨"M001", 0⟩]⟩
      [⟨"T1", "9812345670", "M001", 100, 1, "sig"⟩]).emissions = 1 ∧
    (syncResponses ⟨[], [⟨"9812345670", 1000, 500⟩], [⟨"M001", 0⟩]⟩
      [⟨"T1", "9812345670", "M001", 100, 1, "sig"⟩]).emittedAfter = some 1 ∧
    (syncResponses ⟨[], [⟨"9812345670", 1000, 500⟩], [⟨"M001", 0⟩]⟩
        [⟨"T1", "9812345670", "M001", 100, 1, "sig"⟩]).processed +
      (syncResponses ⟨[], [⟨"9812345670", 1000, 500⟩], [⟨"M001", 0⟩]⟩
        [⟨"T1", "9812345670", "M001", 100, 1, "sig"⟩]).failed = 1 := by
  exact syncResponseExactlyOnce ⟨[], [⟨"9812345670", 1000, 500⟩], [⟨"M001", 0⟩]⟩
    [⟨"T1", "9812345670", "M001", 100, 1, "sig"⟩] (List.cons_ne_nil _ _)

/-- Reduction of the signer when no key pair is loaded: it returns `null`
and leaves the state unchanged (no counter is dispatched). -/
lemma signPaymentToken_none_spec (env : SignEnv) (s : WalletState) (r : SignReq)
    (h : s.keyPair = none) : signPaymentToken env s r = (none, s) := by
  unfold signPaymentToken
  rw [h]

/-- Reduction of the signer when a key pair is loaded: it returns a token
carrying the stored counter and dispatches `INCREMENT_COUNTER` before
returning. -/
lemma signPaymentToken_some_pair (env : SignEnv) (s : WalletState) (r : SignReq)
    (kp : KeyPair) (h : s.keyPair = some kp) :
    ∃ tok, signPaymentToken env s r = (some tok, { s with counter := s.counter + 1 }) ∧
      tok.counter = s.counter := by
  unfold signPaymentToken
  rw [h]
  exact ⟨_, rfl, rfl⟩

/-- The stored counter never decreases across a sequence of sign
operations, and every returned token's counter lies between the counter
at the start and the (strictly larger) counter stored at the end. -/
lemma signSeq_bounds (env : SignEnv) : ∀ (reqs : List SignReq) (s : WalletState),
    s.counter ≤ (signSeq env s reqs).2.counter ∧
    ∀ t ∈ (signSeq env s reqs).1, s.counter ≤ t.counter ∧ t.counter < (signSeq env s reqs).2.counter := by
  intro reqs
  induction reqs with
  | nil =>
    intro s
    exact ⟨le_refl _, by intro t ht; simp [signSeq] at ht⟩
  | cons r rs ih =>
    intro s
    cases hk : s.keyPair with
    | none =>
      have h := signPaymentToken_none_spec env s r hk
      simp only [signSeq, h, Option.toList_none, List.nil_append]
      exact ih s
    | some kp =>
      obtain ⟨tok, hpair, hc⟩ := signPaymentToken_some_pair env s r kp hk
      have ihs := ih { s with counter := s.counter + 1 }
      simp only [signSeq, hpair, Option.toList_some, List.singleton_append]
      constructor
      · have := ihs.1
        simp only at this
        omega
      · intro t ht
        rcases List.mem_cons.mp ht with rfl | ht
        · have := ihs.1
          simp only at this
          omega
        · have h1 := (ihs.2 t ht).1
          have h2 := (ihs.2 t ht).2
          simp only at h1 h2
          omega

/-- The counters of the tokens returned by a sequence of sign operations
are pairwise strictly increasing. -/
lemma signSeq_pairwise (env : SignEnv) : ∀ (reqs : List SignReq) (s : WalletState),
    List.Pairwise (fun a b : PayToken => a.counter < b.counter) (signSeq env s reqs).1 := by
  intro reqs
  induction reqs with
  | nil =>
    intro s
    simp [signSeq]
  | cons r rs ih =>
    intro s
    cases hk : s.keyPair with
    | none =>
      have h := signPaymentToken_none_spec env s r hk
      simp only [signSeq, h, Option.toList_none, List.nil_append]
      exact ih s
    | some kp =>
      obtain ⟨tok, hpair, hc⟩ := signPaymentToken_some_pair env s r kp hk
      simp only [signSeq, hpair, Option.toList_some, List.singleton_append]
      refine List.Pairwise.cons ?_ (ih _)
      intro b hb
      have hbb := ((signSeq_bounds env rs { s with counter := s.counter + 1 }).2 b hb).1
      simp only at hbb
      omega

/-- C7: across any sequence of sign operations on one device, the
returned tokens carry pairwise strictly increasing counters (hence no two
tokens ever share a counter), every returned counter is strictly below
the counter persisted at the end, and each individual sign operation
returns a token carrying the stored counter while persisting the
incremented counter as part of the operation itself — before the token is
handed to the transport, not after a send confirmation. -/
theorem signPaymentToken_counter_monotonic (env : SignEnv) (s : WalletState)
    (reqs : List SignReq) :
    List.Pairwise (fun a b : PayToken => a.counter < b.counter) (signSeq env s reqs).1 ∧
    (∀ t ∈ (signSeq env s reqs).1, t.counter < (signSeq env s reqs).2.counter) ∧
    (∀ (kp : KeyPair) (r : SignReq), s.keyPair = some kp →
      ∃ tok, (signPaymentToken env s r).1 = some tok ∧ tok.counter = s.counter ∧
        (signPaymentToken env s r).2.counter = s.counter + 1) := by
  refine ⟨signSeq_pairwise env reqs s, ?_, ?_⟩
  · intro t ht
    exact ((signSeq_bounds env reqs s).2 t ht).2
  · intro kp r hk
    obtain ⟨tok, hpair, hc⟩ := signPaymentToken_some_pair env s r kp hk
    exact ⟨tok, by rw [hpair], hc, by rw [hpair]⟩

/-- C7, witness: two consecutive sign operations starting from counter
`0` return counters `0` and `1` (pairwise increasing), and the first
operation persists counter `1` while returning counter `0`. -/
theorem signPaymentToken_counter_monotonic_witness :
    List.Pairwise (fun a b : PayToken => a.counter < b.counter)
      (signSeq testSignEnv ⟨"9812345670", some ⟨"pk", "sk"⟩, 0⟩
        [⟨"M001", 100, 5, "r1"⟩, ⟨"M001", 50, 9, "r2"⟩]).1 ∧
    ∃ tok, (signPaymentToken testSignEnv ⟨"9812345670", some ⟨"pk", "sk"⟩, 0⟩
        ⟨"M001", 100, 5, "r1"⟩).1 = some tok ∧ tok.counter = 0 ∧
      (signPaymentToken testSignEnv ⟨"9812345670", some ⟨"pk", "sk"⟩, 0⟩
        ⟨"M001", 100, 5, "r1"⟩).2.counter = 0 + 1 := by
  have h := signPaymentToken_counter_monotonic testSignEnv ⟨"9812345670", some ⟨"pk", "sk"⟩, 0⟩
    [⟨"M001", 100, 5, "r1"⟩, ⟨"M001", 50, 9, "r2"⟩]
  exact ⟨h.1, h.2.2 ⟨"pk", "sk"⟩ ⟨"M001", 100, 5, "r1"⟩ rfl⟩

/-- C5: the four sub-steps are not applied as one atomic unit: when the
INSERT succeeds but the payer-debit UPDATE fails at the storage layer,
the inserted `completed` record and the merchant credit remain visible,
the payer debit is missing, and the element is still reported `success`;
there is also no payer-counter advance among the sub-steps (the server
stores no per-payer counter). -/
theorem syncInsertNotAtomic :
    insertStepF ⟨[], [⟨"9812345670", 1000, 500⟩], [⟨"M001", 0⟩]⟩
        ⟨"T1", "9812345670", "M001", 100, 1, "sig"⟩ ⟨false, true, false⟩ =
      (⟨[⟨"T1", "9812345670", "M001", 100, 1, "sig", "completed"⟩],
        [⟨"9812345670", 1000, 500⟩], [⟨"M001", 100⟩]⟩,
       ⟨"T1", SyncStatus.success⟩) := by
  norm_num [insertStepF, txnExists, mkRecord, debitUser, creditMerchant]

end TokPay
